import Mathlib

/-!
Verification of the image-difference engine `ImgDiffer` of
`pyqt_test_utils.py`, shallowly embedded in Lean 4.

Modelling conventions:
* A color returned by `QImage.pixelColor(i, j)` is either a valid RGBA
  color (four 8-bit channels) or the invalid color (returned by Qt when the
  coordinate is out of range); we model this as `Option RGBA`, where `RGBA`
  packs four `Fin 256` channels.
* Python `float` arithmetic is modelled exactly: rationals, and real
  numbers where `math.sqrt` is involved.
* The `ZeroDivisionError` raised by `num_diffs / total_num_pixels` when
  `total_num_pixels == 0` is modelled by an `Except.error` result; the
  error value carries the `ImgDiffer` state as mutated up to that point
  (the code has already stored `self.max_pix_diff` when the division runs).
-/

namespace PyqtTestUtils

set_option maxRecDepth 8000

/-- Color with channels r, g, b, a, each an 8-bit unsigned value, in the
order returned by `QColor.getRgb()`. -/
structure RGBA where
  r : Fin 256
  g : Fin 256
  b : Fin 256
  a : Fin 256
  deriving DecidableEq

/-- An in-memory raster image: width, height and the pixel grid. `pixel`
gives the stored color at in-range coordinates; out-of-range lookup is
handled by `Image.pixelColor`. -/
structure Image where
  width : ℕ
  height : ℕ
  pixel : ℕ → ℕ → RGBA

/-- Model of `QImage.pixelColor(i, j)`: the stored color when the
coordinate is inside the image, else the invalid color (`none`). -/
def Image.pixelColor (img : Image) (i j : ℕ) : Option RGBA :=
  if i < img.width ∧ j < img.height then some (img.pixel i j) else none

/-- Absolute channel difference `abs(x - y)` from `_get_pixel_diff`. -/
def chanDiff (x y : Fin 256) : ℕ := ((x.val : ℤ) - (y.val : ℤ)).natAbs

/-- The list `diff_color = [abs(x - y) for x, y in zip(pix_rgba, ref_pix_rgba)]`
computed by `_get_pixel_diff` (channel order r, g, b, a). -/
def diffColorList (p q : RGBA) : List ℕ :=
  [chanDiff p.r q.r, chanDiff p.g q.g, chanDiff p.b q.b, chanDiff p.a q.a]

theorem chanDiff_lt (x y : Fin 256) : chanDiff x y < 256 := by
  have hx := x.isLt
  have hy := y.isLt
  simp only [chanDiff]
  omega

/-- The diff pixel written for a differing overlap pixel,
`QColor(*diff_color)`: the four absolute channel differences. -/
def diffRGBA (p q : RGBA) : RGBA :=
  ⟨⟨chanDiff p.r q.r, chanDiff_lt _ _⟩, ⟨chanDiff p.g q.g, chanDiff_lt _ _⟩,
   ⟨chanDiff p.b q.b, chanDiff_lt _ _⟩, ⟨chanDiff p.a q.a, chanDiff_lt _ _⟩⟩

/-- Radicand of the per-pixel RMS computed by `_get_pixel_diff`:
`sum(((x - y) / DIFF_MAX) ** 2 for x, y in zip(...)) / len(pix_rgba)` with
`DIFF_MAX = 255` and `len(pix_rgba) = 4`.  The per-pixel RMS value
`diff_rms_pix` is the square root of this (see `pixelDiffRms`). -/
def pixelRadicand (p q : RGBA) : ℚ :=
  ((((p.r.val : ℚ) - (q.r.val : ℚ)) / 255) ^ 2 +
   (((p.g.val : ℚ) - (q.g.val : ℚ)) / 255) ^ 2 +
   (((p.b.val : ℚ) - (q.b.val : ℚ)) / 255) ^ 2 +
   (((p.a.val : ℚ) - (q.a.val : ℚ)) / 255) ^ 2) / 4

/-- Per-pixel RMS `diff_rms_pix = sqrt(sum(diff) / len(pix_rgba))` returned
by `_get_pixel_diff`. -/
noncomputable def pixelDiffRms (p q : RGBA) : ℝ := Real.sqrt (pixelRadicand p q)

/-- `_get_pixel_diff_ref()`: channel value 0 means "no difference". -/
def DIFF_REF_PIX : ℕ := 0

/-- `_get_pixel_diff_ref_color()` = `QColor(0, 0, 0)`: RGB channels all
zero; as for any `QColor` built from three channel values, the alpha
channel defaults to 255 (opaque). -/
def pixelDiffRefColor : RGBA := ⟨0, 0, 0, 255⟩

/-- `COLOR_NO_PIXEL = QColor('white')`: opaque white. -/
def COLOR_NO_PIXEL : RGBA := ⟨255, 255, 255, 255⟩

/-- Accumulator of the nested pixel loop of `get_diff`.  The running float
sum `diff_rms` (a sum of square roots) is carried as the list of the
radicands accumulated so far, so that the accumulator stays computable;
the real-valued sum is recovered by `rmsSum`. -/
structure LoopAcc where
  diff_rms_terms : List ℚ
  num_diffs : ℕ
  max_pix_diff : ℕ
  total_num_pixels : ℕ
  diff_image : ℕ → ℕ → RGBA

/-- `diff_image.setPixelColor(i, j, c)`. -/
def writePixel (f : ℕ → ℕ → RGBA) (i j : ℕ) (c : RGBA) : ℕ → ℕ → RGBA :=
  fun i' j' => if i' = i ∧ j' = j then c else f i' j'

/-- Body of the nested loop in `get_diff` for one coordinate `c = (i, j)`. -/
def loopStep (image ref_image : Image) (acc : LoopAcc) (c : ℕ × ℕ) : LoopAcc :=
  match image.pixelColor c.1 c.2, ref_image.pixelColor c.1 c.2 with
  | some p, some rp =>
      if p = rp then
        { acc with total_num_pixels := acc.total_num_pixels + 1,
                   diff_image := writePixel acc.diff_image c.1 c.2 pixelDiffRefColor }
      else
        let max_diff := (diffColorList p rp).foldl Nat.max 0
        { acc with total_num_pixels := acc.total_num_pixels + 1,
                   num_diffs := acc.num_diffs + 1,
                   diff_rms_terms := acc.diff_rms_terms ++ [pixelRadicand p rp],
                   max_pix_diff := if acc.max_pix_diff < max_diff then max_diff
                                   else acc.max_pix_diff,
                   diff_image := writePixel acc.diff_image c.1 c.2 (diffRGBA p rp) }
  | some p, none => { acc with diff_image := writePixel acc.diff_image c.1 c.2 p }
  | none, some rp => { acc with diff_image := writePixel acc.diff_image c.1 c.2 rp }
  | none, none => { acc with diff_image := writePixel acc.diff_image c.1 c.2 COLOR_NO_PIXEL }

/-- Coordinates visited by `for i in range(w): for j in range(h)`, in
visit order. -/
def coords (w h : ℕ) : List (ℕ × ℕ) :=
  (List.range w).flatMap fun i => (List.range h).map fun j => (i, j)

/-- Initial loop accumulator: `diff_rms = 0`, `num_diffs = 0`,
`self.max_pix_diff = 0`, `total_num_pixels = 0`.  The freshly allocated
`QImage` has unspecified contents; we model them as all-zero (every
in-range pixel is overwritten by the loop). -/
def initAcc : LoopAcc := ⟨[], 0, 0, 0, fun _ _ => ⟨0, 0, 0, 0⟩⟩

/-- The pixel loop of `get_diff`, run to completion over the
`max(widths) × max(heights)` coordinate grid. -/
def getDiffAcc (image ref_image : Image) : LoopAcc :=
  (coords (max ref_image.width image.width) (max ref_image.height image.height)).foldl
    (loopStep image ref_image) initAcc

/-- The diff image built by `get_diff`: dimensions are the componentwise
maxima, pixel contents as written by the loop. -/
def diffImageOf (image ref_image : Image) : Image :=
  ⟨max ref_image.width image.width, max ref_image.height image.height,
   (getDiffAcc image ref_image).diff_image⟩

/-- State of an `ImgDiffer` instance: the three tolerance fields set in
`__init__`, and the three diff-result fields, each `None` until `get_diff`
stores a value into it. -/
structure ImgDiffer where
  rms_tol_perc : Option ℚ
  num_tol_perc : Option ℚ
  max_pix_diff_tol : Option ℕ
  diff_rms_perc : Option ℝ
  num_diffs_perc : Option ℚ
  max_pix_diff : Option ℕ

/-- `ImgDiffer.__init__`: if no tolerance at all is supplied,
`rms_tol_perc` defaults to 0 (strict equality); the three diff-result
fields start out as `None`. -/
def ImgDiffer.init (rms_tol_perc num_tol_perc : Option ℚ) (max_pix_diff_tol : Option ℕ) :
    ImgDiffer :=
  let rms_tol_perc :=
    if rms_tol_perc = none ∧ num_tol_perc = none ∧ max_pix_diff_tol = none then some (0 : ℚ)
    else rms_tol_perc
  ⟨rms_tol_perc, num_tol_perc, max_pix_diff_tol, none, none, none⟩

/-- `rms_ok = (self.rms_tol_perc is None or self.diff_rms_perc <= self.rms_tol_perc)`. -/
def rmsOk : Option ℚ → ℝ → Prop
  | none, _ => True
  | some t, v => v ≤ (t : ℝ)

/-- `num_diff_ok = (self.num_tol_perc is None or self.num_diffs_perc <= self.num_tol_perc)`. -/
def numDiffOk : Option ℚ → ℚ → Prop
  | none, _ => True
  | some t, v => v ≤ t

/-- `max_pix_diff_ok = (self.max_pix_diff_tol is None or self.max_pix_diff <= self.max_pix_diff_tol)`. -/
def maxPixDiffOk : Option ℕ → ℕ → Prop
  | none, _ => True
  | some t, v => v ≤ t

/-- The value of the float accumulator `diff_rms` at loop exit: the sum of
the accumulated per-pixel square roots. -/
noncomputable def rmsSum (terms : List ℚ) : ℝ :=
  (terms.map fun (t : ℚ) => Real.sqrt ((t : ℚ) : ℝ)).sum

open Classical in
/-- `ImgDiffer.get_diff`.  Returns `.ok (result, self)` where `result` is
the optional diff image and `self` the updated instance state, or
`.error self` for the `ZeroDivisionError` raised by
`num_diffs / total_num_pixels` when the overlap region is empty. -/
noncomputable def ImgDiffer.getDiff (d : ImgDiffer) (image ref_image : Image) :
    Except ImgDiffer (Option Image × ImgDiffer) :=
  let acc := getDiffAcc image ref_image
  let d0 : ImgDiffer := { d with max_pix_diff := some acc.max_pix_diff }
  if acc.total_num_pixels = 0 then .error d0
  else
    let num_diffs_perc : ℚ := ((acc.num_diffs : ℚ) / (acc.total_num_pixels : ℚ)) * 100
    if acc.num_diffs = 0 then
      let d1 := { d0 with num_diffs_perc := some num_diffs_perc,
                          diff_rms_perc := some (0 : ℝ) }
      if ref_image.width = image.width ∧ ref_image.height = image.height then .ok (none, d1)
      else .ok (some (diffImageOf image ref_image), d1)
    else
      let diff_rms_perc : ℝ := (rmsSum acc.diff_rms_terms / (acc.num_diffs : ℝ)) * 100
      let d1 := { d0 with num_diffs_perc := some num_diffs_perc,
                          diff_rms_perc := some diff_rms_perc }
      if rmsOk d.rms_tol_perc diff_rms_perc ∧ numDiffOk d.num_tol_perc num_diffs_perc ∧
          maxPixDiffOk d.max_pix_diff_tol acc.max_pix_diff then
        .ok (none, d1)
      else .ok (some (diffImageOf image ref_image), d1)

/-- One slot of the `report` template after the two-stage `str.format`: an
unset (`None`) value renders as the marker `"None"`, a set value renders
through the `'{:.2f}'` fixed-point float formatter (abstracted here as
`fmt2`) followed by `%`. -/
def formatSlot (fmt2 : ℝ → String) : Option ℝ → String
  | none => "None"
  | some v => fmt2 v ++ "%"

/-- `ImgDiffer.report()`: interpolates, in order, `diff_rms_perc`,
`rms_tol_perc`, `num_diffs_perc` and `num_tol_perc` into the fixed
template.  `fmt2` abstracts Python's `'{:.2f}'` float rendering. -/
def ImgDiffer.report (fmt2 : ℝ → String) (d : ImgDiffer) : String :=
  "RMS diff=" ++ formatSlot fmt2 d.diff_rms_perc ++
  " (rms_tol_perc=" ++ formatSlot fmt2 (d.rms_tol_perc.map fun q => (q : ℝ)) ++
  "), number of pixels changed=" ++ formatSlot fmt2 (d.num_diffs_perc.map fun q => (q : ℝ)) ++
  " (num_tol_perc=" ++ formatSlot fmt2 (d.num_tol_perc.map fun q => (q : ℝ)) ++ ")"

/-! ### Aggregate values of the loop accumulators

Each definition below names the value of one loop accumulator at loop
exit; the `getDiffAcc_*` lemmas prove that the fold indeed computes it. -/

/-- Is `(i, j)` a valid pixel coordinate of both images (overlap region)? -/
def bothValidB (image ref_image : Image) (c : ℕ × ℕ) : Bool :=
  (image.pixelColor c.1 c.2).isSome && (ref_image.pixelColor c.1 c.2).isSome

/-- Does the pixel at `c` lie in the overlap region and differ between the
two images? -/
def differB (image ref_image : Image) (c : ℕ × ℕ) : Bool :=
  match image.pixelColor c.1 c.2, ref_image.pixelColor c.1 c.2 with
  | some p, some rp => decide (p ≠ rp)
  | _, _ => false

/-- `total_num_pixels` at loop exit: the number of overlapping pixels. -/
def totalOverlap (image ref_image : Image) : ℕ :=
  (coords (max ref_image.width image.width) (max ref_image.height image.height)).countP
    (bothValidB image ref_image)

/-- `num_diffs` at loop exit: the number of differing overlapping pixels. -/
def numDiffs (image ref_image : Image) : ℕ :=
  (coords (max ref_image.width image.width) (max ref_image.height image.height)).countP
    (differB image ref_image)

/-- Radicand contributed to `diff_rms` by the coordinate `c`. -/
def diffTermOf (image ref_image : Image) (c : ℕ × ℕ) : ℚ :=
  pixelRadicand (image.pixel c.1 c.2) (ref_image.pixel c.1 c.2)

/-- `max_diff = max(diff_color)` for the coordinate `c`. -/
def maxDiffOf (image ref_image : Image) (c : ℕ × ℕ) : ℕ :=
  (diffColorList (image.pixel c.1 c.2) (ref_image.pixel c.1 c.2)).foldl Nat.max 0

/-- The radicands accumulated into `diff_rms`, in visit order. -/
def rmsTerms (image ref_image : Image) : List ℚ :=
  (((coords (max ref_image.width image.width) (max ref_image.height image.height)).filter
      (differB image ref_image)).map (diffTermOf image ref_image))

/-- `self.max_pix_diff` at loop exit: the largest single-channel absolute
difference over all differing overlapping pixels (0 when there are none). -/
def maxPixDiff (image ref_image : Image) : ℕ :=
  ((((coords (max ref_image.width image.width) (max ref_image.height image.height)).filter
      (differB image ref_image)).map (maxDiffOf image ref_image))).foldl Nat.max 0

/-- The color the loop writes into the diff image at `(i, j)`. -/
def diffPixel (image ref_image : Image) (i j : ℕ) : RGBA :=
  match image.pixelColor i j, ref_image.pixelColor i j with
  | some p, some rp => if p = rp then pixelDiffRefColor else diffRGBA p rp
  | some p, none => p
  | none, some rp => rp
  | none, none => COLOR_NO_PIXEL

theorem pixel_eq_of_pixelColor {img : Image} {i j : ℕ} {p : RGBA}
    (h : img.pixelColor i j = some p) : img.pixel i j = p := by
  by_cases hij : i < img.width ∧ j < img.height
  · simpa [Image.pixelColor, hij] using h
  · simp [Image.pixelColor, hij] at h

theorem mem_coords {w h : ℕ} {c : ℕ × ℕ} : c ∈ coords w h ↔ c.1 < w ∧ c.2 < h := by
  rcases c with ⟨i, j⟩
  simp only [coords, List.mem_flatMap, List.mem_map, List.mem_range, Prod.mk.injEq]
  constructor
  · rintro ⟨a, ha, b, hb, rfl, rfl⟩
    exact ⟨ha, hb⟩
  · rintro ⟨hi, hj⟩
    exact ⟨i, hi, j, hj, rfl, rfl⟩

theorem length_coords (w h : ℕ) : (coords w h).length = w * h := by
  simp only [coords, List.length_flatMap, Function.comp_def, List.length_map,
    List.length_range]
  rw [List.map_const']
  simp [List.sum_replicate, smul_eq_mul, mul_comm]

/-! ### Per-step characterization of the loop body -/

theorem loopStep_total (image ref_image : Image) (acc : LoopAcc) (c : ℕ × ℕ) :
    (loopStep image ref_image acc c).total_num_pixels =
      acc.total_num_pixels + (if bothValidB image ref_image c then 1 else 0) := by
  rcases himg : image.pixelColor c.1 c.2 with _ | p <;>
    rcases href : ref_image.pixelColor c.1 c.2 with _ | rp
  · simp [loopStep, bothValidB, himg, href]
  · simp [loopStep, bothValidB, himg, href]
  · simp [loopStep, bothValidB, himg, href]
  · by_cases hpr : p = rp <;> simp [loopStep, bothValidB, himg, href, hpr]

theorem loopStep_num (image ref_image : Image) (acc : LoopAcc) (c : ℕ × ℕ) :
    (loopStep image ref_image acc c).num_diffs =
      acc.num_diffs + (if differB image ref_image c then 1 else 0) := by
  rcases himg : image.pixelColor c.1 c.2 with _ | p <;>
    rcases href : ref_image.pixelColor c.1 c.2 with _ | rp
  · simp [loopStep, differB, himg, href]
  · simp [loopStep, differB, himg, href]
  · simp [loopStep, differB, himg, href]
  · by_cases hpr : p = rp <;> simp [loopStep, differB, himg, href, hpr]

theorem loopStep_terms (image ref_image : Image) (acc : LoopAcc) (c : ℕ × ℕ) :
    (loopStep image ref_image acc c).diff_rms_terms =
      acc.diff_rms_terms ++
        (if differB image ref_image c then [diffTermOf image ref_image c] else []) := by
  rcases himg : image.pixelColor c.1 c.2 with _ | p <;>
    rcases href : ref_image.pixelColor c.1 c.2 with _ | rp
  · simp [loopStep, differB, himg, href]
  · simp [loopStep, differB, himg, href]
  · simp [loopStep, differB, himg, href]
  · by_cases hpr : p = rp
    · simp [loopStep, differB, himg, href, hpr]
    · simp [loopStep, differB, himg, href, hpr, diffTermOf,
        pixel_eq_of_pixelColor himg, pixel_eq_of_pixelColor href]

theorem loopStep_max (image ref_image : Image) (acc : LoopAcc) (c : ℕ × ℕ) :
    (loopStep image ref_image acc c).max_pix_diff =
      if differB image ref_image c then Nat.max acc.max_pix_diff (maxDiffOf image ref_image c)
      else acc.max_pix_diff := by
  rcases himg : image.pixelColor c.1 c.2 with _ | p <;>
    rcases href : ref_image.pixelColor c.1 c.2 with _ | rp
  · simp [loopStep, differB, himg, href]
  · simp [loopStep, differB, himg, href]
  · simp [loopStep, differB, himg, href]
  · by_cases hpr : p = rp
    · simp [loopStep, differB, himg, href, hpr]
    · simp only [loopStep, differB, himg, href, hpr, decide_not, decide_eq_true_eq,
        ite_false, ite_true, maxDiffOf, pixel_eq_of_pixelColor himg,
        pixel_eq_of_pixelColor href]
      have hmax : Nat.max acc.max_pix_diff
          ((diffColorList p rp).foldl Nat.max 0) =
          acc.max_pix_diff ⊔ (diffColorList p rp).foldl Nat.max 0 := rfl
      simp only [decide_False, Bool.not_false, if_true]
      rw [hmax, Nat.max_def]
      by_cases h2 : acc.max_pix_diff < (diffColorList p rp).foldl Nat.max 0
      · rw [if_pos h2, if_pos (le_of_lt h2)]
      · rw [if_neg h2]
        by_cases h3 : acc.max_pix_diff ≤ (diffColorList p rp).foldl Nat.max 0
        · rw [if_pos h3]
          omega
        · rw [if_neg h3]

theorem loopStep_image (image ref_image : Image) (acc : LoopAcc) (c : ℕ × ℕ) (i j : ℕ) :
    (loopStep image ref_image acc c).diff_image i j =
      if i = c.1 ∧ j = c.2 then diffPixel image ref_image i j else acc.diff_image i j := by
  by_cases hc : i = c.1 ∧ j = c.2
  · obtain ⟨rfl, rfl⟩ : i = c.1 ∧ j = c.2 := hc
    rcases himg : image.pixelColor c.1 c.2 with _ | p <;>
      rcases href : ref_image.pixelColor c.1 c.2 with _ | rp
    · simp [loopStep, diffPixel, himg, href, writePixel]
    · simp [loopStep, diffPixel, himg, href, writePixel]
    · simp [loopStep, diffPixel, himg, href, writePixel]
    · by_cases hpr : p = rp <;> simp [loopStep, diffPixel, himg, href, hpr, writePixel]
  · rcases himg : image.pixelColor c.1 c.2 with _ | p <;>
      rcases href : ref_image.pixelColor c.1 c.2 with _ | rp
    · simp [loopStep, himg, href, writePixel, hc]
    · simp [loopStep, himg, href, writePixel, hc]
    · simp [loopStep, himg, href, writePixel, hc]
    · by_cases hpr : p = rp <;> simp [loopStep, himg, href, hpr, writePixel, hc]

/-! ### The fold computes the aggregates -/

theorem foldl_loopStep_total (image ref_image : Image) (l : List (ℕ × ℕ)) (acc : LoopAcc) :
    (l.foldl (loopStep image ref_image) acc).total_num_pixels =
      acc.total_num_pixels + l.countP (bothValidB image ref_image) := by
  induction l generalizing acc with
  | nil => simp
  | cons c l ih =>
      rw [List.foldl_cons, ih, loopStep_total, List.countP_cons]
      by_cases h : bothValidB image ref_image c <;> simp [h] <;> omega

theorem foldl_loopStep_num (image ref_image : Image) (l : List (ℕ × ℕ)) (acc : LoopAcc) :
    (l.foldl (loopStep image ref_image) acc).num_diffs =
      acc.num_diffs + l.countP (differB image ref_image) := by
  induction l generalizing acc with
  | nil => simp
  | cons c l ih =>
      rw [List.foldl_cons, ih, loopStep_num, List.countP_cons]
      by_cases h : differB image ref_image c <;> simp [h] <;> omega

theorem foldl_loopStep_terms (image ref_image : Image) (l : List (ℕ × ℕ)) (acc : LoopAcc) :
    (l.foldl (loopStep image ref_image) acc).diff_rms_terms =
      acc.diff_rms_terms ++ (l.filter (differB image ref_image)).map (diffTermOf image ref_image) := by
  induction l generalizing acc with
  | nil => simp
  | cons c l ih =>
      rw [List.foldl_cons, ih, loopStep_terms, List.filter_cons]
      by_cases h : differB image ref_image c <;> simp [h]

theorem foldl_loopStep_max (image ref_image : Image) (l : List (ℕ × ℕ)) (acc : LoopAcc) :
    (l.foldl (loopStep image ref_image) acc).max_pix_diff =
      ((l.filter (differB image ref_image)).map (maxDiffOf image ref_image)).foldl
        Nat.max acc.max_pix_diff := by
  induction l generalizing acc with
  | nil => simp
  | cons c l ih =>
      rw [List.foldl_cons, ih, loopStep_max, List.filter_cons]
      by_cases h : differB image ref_image c <;> simp [h]

theorem foldl_loopStep_image (image ref_image : Image) (l : List (ℕ × ℕ)) (acc : LoopAcc)
    (i j : ℕ) :
    (l.foldl (loopStep image ref_image) acc).diff_image i j =
      if (i, j) ∈ l then diffPixel image ref_image i j else acc.diff_image i j := by
  induction l generalizing acc with
  | nil => simp
  | cons c l ih =>
      rw [List.foldl_cons, ih]
      by_cases hmem : (i, j) ∈ l
      · simp [hmem]
      · rw [loopStep_image]
        by_cases hc : (i, j) = c
        · rcases c with ⟨c1, c2⟩
          simp only [Prod.mk.injEq] at hc
          simp [hmem, hc]
        · rcases c with ⟨c1, c2⟩
          simp only [Prod.mk.injEq] at hc
          simp [hmem, hc, List.mem_cons, Prod.mk.injEq]

theorem getDiffAcc_total (image ref_image : Image) :
    (getDiffAcc image ref_image).total_num_pixels = totalOverlap image ref_image := by
  simp [getDiffAcc, foldl_loopStep_total, initAcc, totalOverlap]

theorem getDiffAcc_num (image ref_image : Image) :
    (getDiffAcc image ref_image).num_diffs = numDiffs image ref_image := by
  simp [getDiffAcc, foldl_loopStep_num, initAcc, numDiffs]

theorem getDiffAcc_terms (image ref_image : Image) :
    (getDiffAcc image ref_image).diff_rms_terms = rmsTerms image ref_image := by
  simp [getDiffAcc, foldl_loopStep_terms, initAcc, rmsTerms]

theorem getDiffAcc_max (image ref_image : Image) :
    (getDiffAcc image ref_image).max_pix_diff = maxPixDiff image ref_image := by
  simp [getDiffAcc, foldl_loopStep_max, initAcc, maxPixDiff]

theorem getDiffAcc_image (image ref_image : Image) {i j : ℕ}
    (hi : i < max ref_image.width image.width) (hj : j < max ref_image.height image.height) :
    (getDiffAcc image ref_image).diff_image i j = diffPixel image ref_image i j := by
  rw [getDiffAcc, foldl_loopStep_image, if_pos]
  exact mem_coords.mpr ⟨hi, hj⟩

/-! ### Derived metrics and branch lemmas for `get_diff` -/

/-- The value `self.num_diffs_perc = (num_diffs / total_num_pixels) * 100`
stored by `get_diff` (when the division does not raise). -/
def numDiffsPerc (image ref_image : Image) : ℚ :=
  ((numDiffs image ref_image : ℚ) / (totalOverlap image ref_image : ℚ)) * 100

/-- The value `self.diff_rms_perc` stored by `get_diff` when
`num_diffs > 0`: the accumulated per-pixel RMS sum divided by `num_diffs`,
times 100. -/
noncomputable def diffRmsPerc (image ref_image : Image) : ℝ :=
  (rmsSum (rmsTerms image ref_image) / (numDiffs image ref_image : ℝ)) * 100

theorem rmsTerms_eq_nil (image ref_image : Image) (h : numDiffs image ref_image = 0) :
    rmsTerms image ref_image = [] := by
  unfold numDiffs at h
  rw [List.countP_eq_length_filter, List.length_eq_zero] at h
  simp [rmsTerms, h]

theorem maxPixDiff_eq_zero (image ref_image : Image) (h : numDiffs image ref_image = 0) :
    maxPixDiff image ref_image = 0 := by
  unfold numDiffs at h
  rw [List.countP_eq_length_filter, List.length_eq_zero] at h
  simp [maxPixDiff, h]

theorem numDiffs_le_totalOverlap (image ref_image : Image) :
    numDiffs image ref_image ≤ totalOverlap image ref_image := by
  unfold numDiffs totalOverlap
  apply List.countP_mono_left
  intro c _ hc
  unfold differB at hc
  unfold bothValidB
  rcases himg : image.pixelColor c.1 c.2 with _ | p <;>
    rcases href : ref_image.pixelColor c.1 c.2 with _ | rp <;>
      simp [himg, href] at hc ⊢

theorem getDiff_empty_overlap (d : ImgDiffer) (image ref_image : Image)
    (h : totalOverlap image ref_image = 0) :
    d.getDiff image ref_image =
      .error { d with max_pix_diff := some (maxPixDiff image ref_image) } := by
  rw [ImgDiffer.getDiff]
  simp only [getDiffAcc_total, getDiffAcc_num, getDiffAcc_terms, getDiffAcc_max]
  rw [if_pos h]

theorem getDiff_no_diffs (d : ImgDiffer) (image ref_image : Image)
    (h0 : totalOverlap image ref_image ≠ 0) (h : numDiffs image ref_image = 0) :
    d.getDiff image ref_image =
      if ref_image.width = image.width ∧ ref_image.height = image.height then
        .ok (none, { d with max_pix_diff := some 0, num_diffs_perc := some 0,
                            diff_rms_perc := some (0 : ℝ) })
      else
        .ok (some (diffImageOf image ref_image),
             { d with max_pix_diff := some 0, num_diffs_perc := some 0,
                      diff_rms_perc := some (0 : ℝ) }) := by
  rw [ImgDiffer.getDiff]
  simp only [getDiffAcc_total, getDiffAcc_num, getDiffAcc_terms, getDiffAcc_max]
  rw [if_neg h0]
  simp only [h, maxPixDiff_eq_zero image ref_image h, Nat.cast_zero, zero_div, zero_mul,
    eq_self_iff_true, if_true]

open Classical in
theorem getDiff_with_diffs (d : ImgDiffer) (image ref_image : Image)
    (h : numDiffs image ref_image ≠ 0) :
    d.getDiff image ref_image =
      if rmsOk d.rms_tol_perc (diffRmsPerc image ref_image) ∧
         numDiffOk d.num_tol_perc (numDiffsPerc image ref_image) ∧
         maxPixDiffOk d.max_pix_diff_tol (maxPixDiff image ref_image) then
        .ok (none, { d with max_pix_diff := some (maxPixDiff image ref_image),
                            num_diffs_perc := some (numDiffsPerc image ref_image),
                            diff_rms_perc := some (diffRmsPerc image ref_image) })
      else
        .ok (some (diffImageOf image ref_image),
             { d with max_pix_diff := some (maxPixDiff image ref_image),
                      num_diffs_perc := some (numDiffsPerc image ref_image),
                      diff_rms_perc := some (diffRmsPerc image ref_image) }) := by
  have h0 : totalOverlap image ref_image ≠ 0 := by
    have := numDiffs_le_totalOverlap image ref_image
    omega
  rw [ImgDiffer.getDiff]
  simp only [getDiffAcc_total, getDiffAcc_num, getDiffAcc_terms, getDiffAcc_max]
  rw [if_neg h0, if_neg h]
  simp only [numDiffsPerc, diffRmsPerc]

/-! ### General facts used by the claims -/

theorem numDiffs_self (img : Image) : numDiffs img img = 0 := by
  unfold numDiffs
  rw [List.countP_eq_zero]
  intro c _
  unfold differB
  rcases h : img.pixelColor c.1 c.2 with _ | p <;> simp [h]

theorem totalOverlap_self (img : Image) : totalOverlap img img = img.width * img.height := by
  unfold totalOverlap
  rw [max_self, max_self, List.countP_eq_length.mpr, length_coords]
  intro c hc
  obtain ⟨h1, h2⟩ := mem_coords.mp hc
  simp [bothValidB, Image.pixelColor, h1, h2]

/-- Does a `get_diff` call return normally with result `None` (no diff)? -/
def returnsNone (e : Except ImgDiffer (Option Image × ImgDiffer)) : Prop :=
  ∃ d', e = .ok (none, d')

/-- Does a `get_diff` call return normally with a (non-`None`) diff image? -/
def returnsSomeDiff (e : Except ImgDiffer (Option Image × ImgDiffer)) : Prop :=
  ∃ D d', e = .ok (some D, d')

/-- The `ImgDiffer` state after a `get_diff` call, whether the call
returned normally or raised. -/
def resultState (e : Except ImgDiffer (Option Image × ImgDiffer)) : ImgDiffer :=
  match e with
  | .ok (_, d') => d'
  | .error d' => d'

/-! ### Concrete test images -/

def colorA : RGBA := ⟨10, 20, 30, 40⟩

def colorB : RGBA := ⟨5, 6, 7, 9⟩

/-- A 0×0 image (e.g. a null `QImage`). -/
def imgEmpty : Image := ⟨0, 0, fun _ _ => colorA⟩

/-- A 1×1 image whose only pixel is `colorA`. -/
def imgOne : Image := ⟨1, 1, fun _ _ => colorA⟩

/-- A 1×1 image whose only pixel is `colorB`. -/
def imgOneB : Image := ⟨1, 1, fun _ _ => colorB⟩

/-- A 2×1 image filled with `colorA` (same overlap content as `imgOne`,
different width). -/
def imgTwo : Image := ⟨2, 1, fun _ _ => colorA⟩

/-- A 0×5 image: no coordinate is valid. -/
def imgZeroW : Image := ⟨0, 5, fun _ _ => colorA⟩

/-- A 3×5 image filled with `colorA`. -/
def imgThreeW : Image := ⟨3, 5, fun _ _ => colorA⟩

/-! ### Claim C1 -/

/-- Claim C1 (the claim is what the spec demands; the code raises instead):
with an empty overlap region (here a 0×0 "actual" image against a 1×1
reference), `get_diff` does not complete: the statement
`self.num_diffs_perc = (num_diffs / total_num_pixels) * 100` divides by
zero and raises `ZeroDivisionError` (modelled as `.error`), instead of
reporting `num_diffs_perc = 0` as the claim requires.  At that point
only `self.max_pix_diff = 0` has been stored. -/
theorem c1_empty_overlap_raises :
    (ImgDiffer.init none none none).getDiff imgEmpty imgOne =
      .error { ImgDiffer.init none none none with max_pix_diff := some 0 } := by
  have hmax : maxPixDiff imgEmpty imgOne = 0 := by decide
  rw [getDiff_empty_overlap _ _ _ (by decide), hmax]

/-! ### Claim C2 -/

/-- Claim C2, counterexample: for the 0×0 image, `get_diff(I, I)` does not
return `None`; it raises `ZeroDivisionError` (the overlap is empty). -/
theorem c2_identity_counterexample :
    ¬ returnsNone ((ImgDiffer.init none none none).getDiff imgEmpty imgEmpty) := by
  rw [getDiff_empty_overlap _ _ _ (by decide)]
  rintro ⟨d', h⟩
  exact Except.noConfusion h

/-- Claim C2 (amended: the image must have positive width and height, so
that the overlap is non-empty and the division does not raise): for every
such image `I` and every tolerance configuration, `get_diff(I, I)` returns
`None`, storing `diff_rms_perc = 0`, `num_diffs_perc = 0`,
`max_pix_diff = 0`. -/
theorem c2_identity (d : ImgDiffer) (I : Image) (hw : 0 < I.width) (hh : 0 < I.height) :
    d.getDiff I I =
      .ok (none, { d with max_pix_diff := some 0, num_diffs_perc := some 0,
                          diff_rms_perc := some (0 : ℝ) }) := by
  have h0 : totalOverlap I I ≠ 0 := by
    rw [totalOverlap_self]
    exact Nat.mul_ne_zero (by omega) (by omega)
  rw [getDiff_no_diffs d I I h0 (numDiffs_self I), if_pos ⟨rfl, rfl⟩]

/-- Witness for C2 at the concrete image `imgOne`. -/
theorem c2_identity_witness :
    0 < imgOne.width ∧ 0 < imgOne.height ∧
      (ImgDiffer.init (some 5) none none).getDiff imgOne imgOne =
        .ok (none, { ImgDiffer.init (some 5) none none with
                      max_pix_diff := some 0, num_diffs_perc := some 0,
                      diff_rms_perc := some (0 : ℝ) }) :=
  ⟨by decide, by decide, c2_identity _ _ (by decide) (by decide)⟩

/-! ### Claim C3 -/

/-- Claim C3, counterexample: the pair (0×5 actual, 3×5 reference) has all
overlapping pixels equal (vacuously: the overlap is empty) and differing
widths, yet `get_diff` does not return a non-`None` diff image — it raises
`ZeroDivisionError`. -/
theorem c3_counterexample :
    numDiffs imgZeroW imgThreeW = 0 ∧ imgZeroW.width ≠ imgThreeW.width ∧
      ¬ returnsSomeDiff ((ImgDiffer.init none none none).getDiff imgZeroW imgThreeW) := by
  refine ⟨by decide, by decide, ?_⟩
  rw [getDiff_empty_overlap _ _ _ (by decide)]
  rintro ⟨D, d', h⟩
  exact Except.noConfusion h

/-- Claim C3 (amended: restricted to pairs with a non-empty overlap, since
an empty overlap raises `ZeroDivisionError`, see C1): when no overlapping
pixel differs, `get_diff` returns a non-`None` diff image whenever width
or height differ — regardless of the tolerance configuration `d` — and
returns `None` when both dimensions agree. -/
theorem c3_size_mismatch (d : ImgDiffer) (image ref_image : Image)
    (h0 : totalOverlap image ref_image ≠ 0) (h : numDiffs image ref_image = 0) :
    (image.width ≠ ref_image.width ∨ image.height ≠ ref_image.height →
      d.getDiff image ref_image =
        .ok (some (diffImageOf image ref_image),
             { d with max_pix_diff := some 0, num_diffs_perc := some 0,
                      diff_rms_perc := some (0 : ℝ) })) ∧
    (image.width = ref_image.width ∧ image.height = ref_image.height →
      d.getDiff image ref_image =
        .ok (none, { d with max_pix_diff := some 0, num_diffs_perc := some 0,
                            diff_rms_perc := some (0 : ℝ) })) := by
  rw [getDiff_no_diffs d _ _ h0 h]
  constructor
  · intro hne
    rw [if_neg]
    rintro ⟨hw, hh⟩
    rcases hne with hne | hne
    · exact hne hw.symm
    · exact hne hh.symm
  · rintro ⟨hw, hh⟩
    rw [if_pos ⟨hw.symm, hh.symm⟩]

/-- Witness for C3 at the concrete pair (2×1 actual, 1×1 reference) with
identical overlap content. -/
theorem c3_size_mismatch_witness :
    totalOverlap imgTwo imgOne ≠ 0 ∧ numDiffs imgTwo imgOne = 0 ∧
      imgTwo.width ≠ imgOne.width ∧
      ((imgTwo.width ≠ imgOne.width ∨ imgTwo.height ≠ imgOne.height →
        (ImgDiffer.init none none none).getDiff imgTwo imgOne =
          .ok (some (diffImageOf imgTwo imgOne),
               { ImgDiffer.init none none none with
                  max_pix_diff := some 0, num_diffs_perc := some 0,
                  diff_rms_perc := some (0 : ℝ) })) ∧
      (imgTwo.width = imgOne.width ∧ imgTwo.height = imgOne.height →
        (ImgDiffer.init none none none).getDiff imgTwo imgOne =
          .ok (none, { ImgDiffer.init none none none with
                        max_pix_diff := some 0, num_diffs_perc := some 0,
                        diff_rms_perc := some (0 : ℝ) }))) :=
  ⟨by decide, by decide, by decide,
   c3_size_mismatch _ _ _ (by decide) (by decide)⟩

/-! ### Claim C9 -/

/-- Claim C9: `get_diff` never modifies the three tolerance-configuration
fields, on any execution path (normal return with or without a diff image,
and even on the `ZeroDivisionError` path). -/
theorem c9_tolerances_frame (d : ImgDiffer) (image ref_image : Image) :
    (resultState (d.getDiff image ref_image)).rms_tol_perc = d.rms_tol_perc ∧
    (resultState (d.getDiff image ref_image)).num_tol_perc = d.num_tol_perc ∧
    (resultState (d.getDiff image ref_image)).max_pix_diff_tol = d.max_pix_diff_tol := by
  by_cases h0 : totalOverlap image ref_image = 0
  · rw [getDiff_empty_overlap d _ _ h0]
    exact ⟨rfl, rfl, rfl⟩
  · by_cases h : numDiffs image ref_image = 0
    · rw [getDiff_no_diffs d _ _ h0 h]
      by_cases hdim : ref_image.width = image.width ∧ ref_image.height = image.height
      · rw [if_pos hdim]
        exact ⟨rfl, rfl, rfl⟩
      · rw [if_neg hdim]
        exact ⟨rfl, rfl, rfl⟩
    · rw [getDiff_with_diffs d _ _ h]
      by_cases hok : rmsOk d.rms_tol_perc (diffRmsPerc image ref_image) ∧
          numDiffOk d.num_tol_perc (numDiffsPerc image ref_image) ∧
          maxPixDiffOk d.max_pix_diff_tol (maxPixDiff image ref_image)
      · rw [if_pos hok]
        exact ⟨rfl, rfl, rfl⟩
      · rw [if_neg hok]
        exact ⟨rfl, rfl, rfl⟩

/-! ### Claim C4 -/

/-- Claim C4: with at least one differing overlapping pixel, `get_diff`
stores `diff_rms_perc = (sum of per-pixel RMS values / num_diffs) * 100`
(this is `diffRmsPerc`) and returns `None` exactly when all three checks
pass; each check is trivially true when its tolerance is unset and
otherwise compares its metric with `≤` against the threshold (`rmsOk`,
`numDiffOk`, `maxPixDiffOk`). -/
theorem c4_metrics_and_gating (d : ImgDiffer) (image ref_image : Image)
    (h : 0 < numDiffs image ref_image) :
    ∃ r d', d.getDiff image ref_image = .ok (r, d') ∧
      d'.diff_rms_perc = some (diffRmsPerc image ref_image) ∧
      (r = none ↔
        rmsOk d.rms_tol_perc (diffRmsPerc image ref_image) ∧
        numDiffOk d.num_tol_perc (numDiffsPerc image ref_image) ∧
        maxPixDiffOk d.max_pix_diff_tol (maxPixDiff image ref_image)) := by
  have h' : numDiffs image ref_image ≠ 0 := by omega
  rw [getDiff_with_diffs d _ _ h']
  by_cases hok : rmsOk d.rms_tol_perc (diffRmsPerc image ref_image) ∧
      numDiffOk d.num_tol_perc (numDiffsPerc image ref_image) ∧
      maxPixDiffOk d.max_pix_diff_tol (maxPixDiff image ref_image)
  · exact ⟨none, _, by rw [if_pos hok], rfl, by simp [hok]⟩
  · refine ⟨some (diffImageOf image ref_image), _, by rw [if_neg hok], rfl, ?_⟩
    simp [hok]

/-- Witness for C4 at a concrete differing 1×1 pair. -/
theorem c4_metrics_and_gating_witness :
    0 < numDiffs imgOneB imgOne ∧
      ∃ r d', (ImgDiffer.init none none none).getDiff imgOneB imgOne = .ok (r, d') ∧
        d'.diff_rms_perc = some (diffRmsPerc imgOneB imgOne) ∧
        (r = none ↔
          rmsOk (ImgDiffer.init none none none).rms_tol_perc (diffRmsPerc imgOneB imgOne) ∧
          numDiffOk (ImgDiffer.init none none none).num_tol_perc (numDiffsPerc imgOneB imgOne) ∧
          maxPixDiffOk (ImgDiffer.init none none none).max_pix_diff_tol
            (maxPixDiff imgOneB imgOne)) :=
  ⟨by decide, c4_metrics_and_gating _ _ _ (by decide)⟩

/-! ### Claim C5 -/

/-- Order "raised, or left equal" on one optional tolerance threshold. -/
def tolLe {α : Type} [LE α] : Option α → Option α → Prop
  | none, none => True
  | some t, some t' => t ≤ t'
  | _, _ => False

theorem rmsOk_mono {t t' : Option ℚ} {v : ℝ} (h : tolLe t t') (hok : rmsOk t v) :
    rmsOk t' v := by
  match t, t' with
  | none, none => trivial
  | some a, some b =>
      exact le_trans hok (by exact_mod_cast h)
  | some a, none => exact h.elim
  | none, some b => exact h.elim

theorem numDiffOk_mono {t t' : Option ℚ} {v : ℚ} (h : tolLe t t') (hok : numDiffOk t v) :
    numDiffOk t' v := by
  match t, t' with
  | none, none => trivial
  | some a, some b => exact le_trans hok h
  | some a, none => exact h.elim
  | none, some b => exact h.elim

theorem maxPixDiffOk_mono {t t' : Option ℕ} {v : ℕ} (h : tolLe t t') (hok : maxPixDiffOk t v) :
    maxPixDiffOk t' v := by
  match t, t' with
  | none, none => trivial
  | some a, some b => exact le_trans hok h
  | some a, none => exact h.elim
  | none, some b => exact h.elim

/-- Claim C5: raising tolerance thresholds (here: each of the three raised
or left equal, which subsumes raising exactly one while holding the others
fixed) can only turn a reported diff into "no diff", never the reverse:
if `d` reports a diff image, `d'` returns the same diff image or `None`;
if `d` reports no diff, `d'` also reports no diff. -/
theorem c5_tolerance_monotonicity (d d' : ImgDiffer) (image ref_image : Image)
    (hr : tolLe d.rms_tol_perc d'.rms_tol_perc)
    (hn : tolLe d.num_tol_perc d'.num_tol_perc)
    (hm : tolLe d.max_pix_diff_tol d'.max_pix_diff_tol) :
    (∀ D e₁, d.getDiff image ref_image = .ok (some D, e₁) →
      (∃ e₂, d'.getDiff image ref_image = .ok (some D, e₂)) ∨
      (∃ e₂, d'.getDiff image ref_image = .ok (none, e₂))) ∧
    (∀ e₁, d.getDiff image ref_image = .ok (none, e₁) →
      ∃ e₂, d'.getDiff image ref_image = .ok (none, e₂)) := by
  by_cases h0 : totalOverlap image ref_image = 0
  · rw [getDiff_empty_overlap d _ _ h0]
    exact ⟨fun D e₁ h => Except.noConfusion h, fun e₁ h => Except.noConfusion h⟩
  · by_cases hnd : numDiffs image ref_image = 0
    · rw [getDiff_no_diffs d _ _ h0 hnd, getDiff_no_diffs d' _ _ h0 hnd]
      by_cases hdim : ref_image.width = image.width ∧ ref_image.height = image.height
      · rw [if_pos hdim, if_pos hdim]
        refine ⟨fun D e₁ h => ?_, fun e₁ h => ⟨_, rfl⟩⟩
        simp at h
      · rw [if_neg hdim, if_neg hdim]
        refine ⟨fun D e₁ h => ?_, fun e₁ h => ?_⟩
        · obtain ⟨hD, -⟩ : some (diffImageOf image ref_image) = some D ∧ _ := by
            simpa using h
          left
          obtain rfl : diffImageOf image ref_image = D := by simpa using hD
          exact ⟨_, rfl⟩
        · simp at h
    · rw [getDiff_with_diffs d _ _ hnd, getDiff_with_diffs d' _ _ hnd]
      by_cases hok : rmsOk d.rms_tol_perc (diffRmsPerc image ref_image) ∧
          numDiffOk d.num_tol_perc (numDiffsPerc image ref_image) ∧
          maxPixDiffOk d.max_pix_diff_tol (maxPixDiff image ref_image)
      · have hok' : rmsOk d'.rms_tol_perc (diffRmsPerc image ref_image) ∧
            numDiffOk d'.num_tol_perc (numDiffsPerc image ref_image) ∧
            maxPixDiffOk d'.max_pix_diff_tol (maxPixDiff image ref_image) :=
          ⟨rmsOk_mono hr hok.1, numDiffOk_mono hn hok.2.1, maxPixDiffOk_mono hm hok.2.2⟩
        rw [if_pos hok, if_pos hok']
        refine ⟨fun D e₁ h => ?_, fun e₁ h => ⟨_, rfl⟩⟩
        simp at h
      · rw [if_neg hok]
        refine ⟨fun D e₁ h => ?_, fun e₁ h => ?_⟩
        · obtain hD : some (diffImageOf image ref_image) = some D ∧ _ := by simpa using h
          obtain rfl : diffImageOf image ref_image = D := by simpa using hD.1
          by_cases hok' : rmsOk d'.rms_tol_perc (diffRmsPerc image ref_image) ∧
              numDiffOk d'.num_tol_perc (numDiffsPerc image ref_image) ∧
              maxPixDiffOk d'.max_pix_diff_tol (maxPixDiff image ref_image)
          · right
            rw [if_pos hok']
            exact ⟨_, rfl⟩
          · left
            rw [if_neg hok']
            exact ⟨_, rfl⟩
        · simp at h

/-- Witness for C5: raising the num-diffs tolerance from 0% to 100% on a
differing 1×1 pair. -/
theorem c5_tolerance_monotonicity_witness :
    tolLe (ImgDiffer.init none (some 0) none).rms_tol_perc
        (ImgDiffer.init none (some 100) none).rms_tol_perc ∧
    tolLe (ImgDiffer.init none (some 0) none).num_tol_perc
        (ImgDiffer.init none (some 100) none).num_tol_perc ∧
    tolLe (ImgDiffer.init none (some 0) none).max_pix_diff_tol
        (ImgDiffer.init none (some 100) none).max_pix_diff_tol ∧
    ((∀ D e₁, (ImgDiffer.init none (some 0) none).getDiff imgOneB imgOne = .ok (some D, e₁) →
      (∃ e₂, (ImgDiffer.init none (some 100) none).getDiff imgOneB imgOne = .ok (some D, e₂)) ∨
      (∃ e₂, (ImgDiffer.init none (some 100) none).getDiff imgOneB imgOne = .ok (none, e₂))) ∧
    (∀ e₁, (ImgDiffer.init none (some 0) none).getDiff imgOneB imgOne = .ok (none, e₁) →
      ∃ e₂, (ImgDiffer.init none (some 100) none).getDiff imgOneB imgOne = .ok (none, e₂))) := by
  have h1 : tolLe (ImgDiffer.init none (some 0) none).rms_tol_perc
      (ImgDiffer.init none (some 100) none).rms_tol_perc := by
    simp [ImgDiffer.init, tolLe]
  have h2 : tolLe (ImgDiffer.init none (some 0) none).num_tol_perc
      (ImgDiffer.init none (some 100) none).num_tol_perc := by
    simp [ImgDiffer.init, tolLe]
  have h3 : tolLe (ImgDiffer.init none (some 0) none).max_pix_diff_tol
      (ImgDiffer.init none (some 100) none).max_pix_diff_tol := by
    simp [ImgDiffer.init, tolLe]
  exact ⟨h1, h2, h3, c5_tolerance_monotonicity _ _ imgOneB imgOne h1 h2 h3⟩

/-! ### Claim C6 -/

/-- Claim C6, counterexample: two `ImgDiffer` states that agree on
`diff_rms_perc`, `rms_tol_perc`, `num_diffs_perc`, `num_tol_perc` but have
different `max_pix_diff` (5 vs 200) and `max_pix_diff_tol` (unset vs 7)
produce the very same `report()` string: the report does not summarize
`max_pix_diff` or its tolerance at all. -/
theorem c6_report_counterexample :
    ImgDiffer.report (fun _ => "1.00")
        ⟨some 1, some 2, none, some 3, some 4, some 5⟩ =
      ImgDiffer.report (fun _ => "1.00")
        ⟨some 1, some 2, some 7, some 3, some 4, some 200⟩ ∧
    (5 : ℕ) ≠ 200 :=
  ⟨rfl, by decide⟩

/-- Claim C6 (amended): `report()` summarizes only `diff_rms_perc` with
`rms_tol_perc` and `num_diffs_perc` with `num_tol_perc` — the string is
entirely determined by those four fields, so `max_pix_diff` and its
tolerance are omitted — and an unset tolerance renders as the explicit
marker `"None"`, not as a numeric value. -/
theorem c6_report_amended (fmt2 : ℝ → String) (d₁ d₂ : ImgDiffer)
    (h1 : d₁.diff_rms_perc = d₂.diff_rms_perc) (h2 : d₁.rms_tol_perc = d₂.rms_tol_perc)
    (h3 : d₁.num_diffs_perc = d₂.num_diffs_perc) (h4 : d₁.num_tol_perc = d₂.num_tol_perc) :
    ImgDiffer.report fmt2 d₁ = ImgDiffer.report fmt2 d₂ ∧
    (d₁.rms_tol_perc = none →
      ImgDiffer.report fmt2 d₁ =
        "RMS diff=" ++ formatSlot fmt2 d₁.diff_rms_perc ++ " (rms_tol_perc=" ++ "None" ++
        "), number of pixels changed=" ++
        formatSlot fmt2 (d₁.num_diffs_perc.map fun q => (q : ℝ)) ++
        " (num_tol_perc=" ++ formatSlot fmt2 (d₁.num_tol_perc.map fun q => (q : ℝ)) ++ ")") := by
  constructor
  · unfold ImgDiffer.report
    rw [h1, h2, h3, h4]
  · intro h
    unfold ImgDiffer.report
    rw [h]
    rfl

/-- Witness for C6 (amended) at a concrete state with `rms_tol_perc`
unset. -/
theorem c6_report_amended_witness :
    (⟨none, some 4, none, some 3, some 4, some 5⟩ : ImgDiffer).diff_rms_perc =
        (⟨none, some 4, none, some 3, some 4, some 5⟩ : ImgDiffer).diff_rms_perc ∧
    ((⟨none, some 4, none, some 3, some 4, some 5⟩ : ImgDiffer).rms_tol_perc = none →
      ImgDiffer.report (fun _ => "0.00") ⟨none, some 4, none, some 3, some 4, some 5⟩ =
        "RMS diff=" ++ formatSlot (fun _ => "0.00")
            (⟨none, some 4, none, some 3, some 4, some 5⟩ : ImgDiffer).diff_rms_perc ++
        " (rms_tol_perc=" ++ "None" ++
        "), number of pixels changed=" ++
        formatSlot (fun _ => "0.00")
          ((⟨none, some 4, none, some 3, some 4, some 5⟩ : ImgDiffer).num_diffs_perc.map
            fun q => (q : ℝ)) ++
        " (num_tol_perc=" ++
        formatSlot (fun _ => "0.00")
          ((⟨none, some 4, none, some 3, some 4, some 5⟩ : ImgDiffer).num_tol_perc.map
            fun q => (q : ℝ)) ++ ")") := by
  have h := c6_report_amended (fun _ => "0.00")
    ⟨none, some 4, none, some 3, some 4, some 5⟩
    ⟨none, some 4, none, some 3, some 4, some 5⟩ rfl rfl rfl rfl
  exact ⟨rfl, h.2⟩

/-! ### Claim C8 -/

/-- A 2×1 "actual" image: `colorA` at (0,0), `colorB` at (1,0). -/
def imgPairA : Image := ⟨2, 1, fun i _ => if i = 0 then colorA else colorB⟩

/-- A 2×1 reference image filled with `colorA`. -/
def imgPairB : Image := ⟨2, 1, fun _ _ => colorA⟩

/-- Claim C8, counterexample: at a coordinate where both images hold the
same valid color, the pixel written into the diff image is
`QColor(0, 0, 0)` — RGB channels zero but alpha 255 — not a pixel with
all four channels zero as the claim states. -/
theorem c8_counterexample :
    imgPairA.pixelColor 0 0 = some colorA ∧ imgPairB.pixelColor 0 0 = some colorA ∧
    (diffImageOf imgPairA imgPairB).pixel 0 0 = pixelDiffRefColor ∧
    pixelDiffRefColor.a ≠ 0 :=
  ⟨by decide, by decide, by decide, by decide⟩

/-- Claim C8 (amended: for a coordinate where the two valid pixels are
exactly equal, the diff pixel has its three color channels zero and alpha
255, i.e. `QColor(0,0,0)`; the other four cases are as the claim states):
full case analysis of the diff-image pixel at any in-range coordinate. -/
theorem c8_diff_pixel_cases (image ref_image : Image) (i j : ℕ)
    (hi : i < max ref_image.width image.width)
    (hj : j < max ref_image.height image.height) :
    (∀ p rp, image.pixelColor i j = some p → ref_image.pixelColor i j = some rp →
      ((p = rp → (diffImageOf image ref_image).pixel i j = pixelDiffRefColor) ∧
       (p ≠ rp → (diffImageOf image ref_image).pixel i j = diffRGBA p rp))) ∧
    (∀ p, image.pixelColor i j = some p → ref_image.pixelColor i j = none →
      (diffImageOf image ref_image).pixel i j = p) ∧
    (∀ rp, image.pixelColor i j = none → ref_image.pixelColor i j = some rp →
      (diffImageOf image ref_image).pixel i j = rp) ∧
    (image.pixelColor i j = none → ref_image.pixelColor i j = none →
      (diffImageOf image ref_image).pixel i j = COLOR_NO_PIXEL) := by
  have hkey : (diffImageOf image ref_image).pixel i j = diffPixel image ref_image i j :=
    getDiffAcc_image image ref_image hi hj
  refine ⟨fun p rp hp hrp => ⟨fun he => ?_, fun hne => ?_⟩,
          fun p hp hrp => ?_, fun rp hp hrp => ?_, fun hp hrp => ?_⟩ <;>
    rw [hkey] <;> simp [diffPixel, hp, hrp]
  · exact fun h => absurd he h
  · exact fun h => absurd h hne

/-- Witness for C8 at the coordinate (0,0) of the concrete 2×1 pair. -/
theorem c8_diff_pixel_cases_witness :
    (0 < max imgPairB.width imgPairA.width ∧ 0 < max imgPairB.height imgPairA.height) ∧
    ((∀ p rp, imgPairA.pixelColor 0 0 = some p → imgPairB.pixelColor 0 0 = some rp →
      ((p = rp → (diffImageOf imgPairA imgPairB).pixel 0 0 = pixelDiffRefColor) ∧
       (p ≠ rp → (diffImageOf imgPairA imgPairB).pixel 0 0 = diffRGBA p rp))) ∧
    (∀ p, imgPairA.pixelColor 0 0 = some p → imgPairB.pixelColor 0 0 = none →
      (diffImageOf imgPairA imgPairB).pixel 0 0 = p) ∧
    (∀ rp, imgPairA.pixelColor 0 0 = none → imgPairB.pixelColor 0 0 = some rp →
      (diffImageOf imgPairA imgPairB).pixel 0 0 = rp) ∧
    (imgPairA.pixelColor 0 0 = none → imgPairB.pixelColor 0 0 = none →
      (diffImageOf imgPairA imgPairB).pixel 0 0 = COLOR_NO_PIXEL)) :=
  ⟨⟨by decide, by decide⟩, c8_diff_pixel_cases imgPairA imgPairB 0 0 (by decide) (by decide)⟩

/-! ### Claim C10: bounds on the computed metrics -/

theorem foldl_natMax_le {l : List ℕ} {n init : ℕ} (hinit : init ≤ n)
    (h : ∀ x ∈ l, x ≤ n) : l.foldl Nat.max init ≤ n := by
  induction l generalizing init with
  | nil => exact hinit
  | cons x l ih =>
      rw [List.foldl_cons]
      refine ih ?_ fun y hy => h y (List.mem_cons_of_mem _ hy)
      exact Nat.max_le.mpr ⟨hinit, h x (List.mem_cons_self _ _)⟩

theorem le_foldl_natMax_init (l : List ℕ) (init : ℕ) : init ≤ l.foldl Nat.max init := by
  induction l generalizing init with
  | nil => exact le_refl _
  | cons x l ih =>
      rw [List.foldl_cons]
      exact le_trans (Nat.le_max_left init x) (ih _)

theorem le_foldl_natMax {l : List ℕ} {x : ℕ} (hx : x ∈ l) (init : ℕ) :
    x ≤ l.foldl Nat.max init := by
  induction l generalizing init with
  | nil => cases hx
  | cons y l ih =>
      rw [List.foldl_cons]
      rcases List.mem_cons.mp hx with rfl | hx'
      · exact le_trans (Nat.le_max_right init x) (le_foldl_natMax_init _ _)
      · exact ih hx' _

theorem chanDiff_eq_zero {x y : Fin 256} : chanDiff x y = 0 ↔ x = y := by
  unfold chanDiff
  rw [Int.natAbs_eq_zero, sub_eq_zero]
  constructor
  · intro h
    exact Fin.ext (by exact_mod_cast h)
  · rintro rfl
    rfl

theorem rgba_eq_of_chanDiff {p q : RGBA} (hr : chanDiff p.r q.r = 0)
    (hg : chanDiff p.g q.g = 0) (hb : chanDiff p.b q.b = 0) (ha : chanDiff p.a q.a = 0) :
    p = q := by
  obtain ⟨pr, pg, pb, pa⟩ := p
  obtain ⟨qr, qg, qb, qa⟩ := q
  simp only [chanDiff_eq_zero] at hr hg hb ha
  simp [hr, hg, hb, ha]

theorem one_le_maxDiff {p q : RGBA} (h : p ≠ q) :
    1 ≤ (diffColorList p q).foldl Nat.max 0 := by
  by_contra hcon
  have h0 : ∀ x ∈ diffColorList p q, x = 0 := by
    intro x hx
    have h1 := le_foldl_natMax hx 0
    omega
  exact h (rgba_eq_of_chanDiff
    (h0 _ (by simp [diffColorList])) (h0 _ (by simp [diffColorList]))
    (h0 _ (by simp [diffColorList])) (h0 _ (by simp [diffColorList])))

theorem differB_spec {image ref_image : Image} {c : ℕ × ℕ} (h : differB image ref_image c) :
    ∃ p rp, image.pixelColor c.1 c.2 = some p ∧ ref_image.pixelColor c.1 c.2 = some rp ∧
      p ≠ rp := by
  unfold differB at h
  rcases himg : image.pixelColor c.1 c.2 with _ | p <;>
    rcases href : ref_image.pixelColor c.1 c.2 with _ | rp <;>
      rw [himg, href] at h <;> simp at h
  exact ⟨p, rp, rfl, rfl, h⟩

theorem chanDiff_le (x y : Fin 256) : chanDiff x y ≤ 255 := by
  have := chanDiff_lt x y
  omega

theorem maxDiffOf_le (image ref_image : Image) (c : ℕ × ℕ) :
    maxDiffOf image ref_image c ≤ 255 := by
  unfold maxDiffOf
  refine foldl_natMax_le (by omega) fun x hx => ?_
  unfold diffColorList at hx
  simp only [List.mem_cons, List.mem_singleton, List.not_mem_nil, or_false] at hx
  rcases hx with rfl | rfl | rfl | rfl <;> exact chanDiff_le _ _

theorem maxPixDiff_le_255 (image ref_image : Image) : maxPixDiff image ref_image ≤ 255 := by
  unfold maxPixDiff
  refine foldl_natMax_le (by omega) fun x hx => ?_
  obtain ⟨c, hc, rfl⟩ := List.mem_map.mp hx
  exact maxDiffOf_le image ref_image c

theorem one_le_maxPixDiff {image ref_image : Image} (h : numDiffs image ref_image ≠ 0) :
    1 ≤ maxPixDiff image ref_image := by
  unfold numDiffs at h
  obtain ⟨c, hc, hdiff⟩ := List.countP_pos_iff.mp (Nat.pos_of_ne_zero h)
  obtain ⟨p, rp, hp, hrp, hne⟩ := differB_spec hdiff
  have hmem : maxDiffOf image ref_image c ∈
      (((coords (max ref_image.width image.width)
          (max ref_image.height image.height)).filter (differB image ref_image)).map
        (maxDiffOf image ref_image)) :=
    List.mem_map_of_mem _ (List.mem_filter.mpr ⟨hc, hdiff⟩)
  have h2 : maxDiffOf image ref_image c ≤ maxPixDiff image ref_image :=
    le_foldl_natMax hmem 0
  have h1 : 1 ≤ maxDiffOf image ref_image c := by
    unfold maxDiffOf
    rw [pixel_eq_of_pixelColor hp, pixel_eq_of_pixelColor hrp]
    exact one_le_maxDiff hne
  omega

theorem numDiffsPerc_nonneg (image ref_image : Image) : 0 ≤ numDiffsPerc image ref_image := by
  unfold numDiffsPerc
  positivity

theorem numDiffsPerc_le_100 (image ref_image : Image) (h0 : totalOverlap image ref_image ≠ 0) :
    numDiffsPerc image ref_image ≤ 100 := by
  unfold numDiffsPerc
  have hle : (numDiffs image ref_image : ℚ) ≤ (totalOverlap image ref_image : ℚ) := by
    exact_mod_cast numDiffs_le_totalOverlap image ref_image
  have hpos : (0 : ℚ) < (totalOverlap image ref_image : ℚ) := by
    exact_mod_cast Nat.pos_of_ne_zero h0
  have h1 := (div_le_one hpos).mpr hle
  nlinarith [h1]

theorem sq_chan_le_one (x y : Fin 256) : (((x.val : ℚ) - (y.val : ℚ)) / 255) ^ 2 ≤ 1 := by
  have hx : (x.val : ℚ) ≤ 255 := by
    have := x.isLt
    exact_mod_cast by omega
  have hy : (y.val : ℚ) ≤ 255 := by
    have := y.isLt
    exact_mod_cast by omega
  have hx0 : (0 : ℚ) ≤ (x.val : ℚ) := by positivity
  have hy0 : (0 : ℚ) ≤ (y.val : ℚ) := by positivity
  rw [div_pow, div_le_one (by norm_num)]
  have := sq_le_sq' (a := (x.val : ℚ) - (y.val : ℚ)) (b := 255) (by linarith) (by linarith)
  linarith [this]

theorem pixelRadicand_nonneg (p q : RGBA) : 0 ≤ pixelRadicand p q := by
  unfold pixelRadicand
  positivity

theorem pixelRadicand_le_one (p q : RGBA) : pixelRadicand p q ≤ 1 := by
  unfold pixelRadicand
  have h1 := sq_chan_le_one p.r q.r
  have h2 := sq_chan_le_one p.g q.g
  have h3 := sq_chan_le_one p.b q.b
  have h4 := sq_chan_le_one p.a q.a
  linarith

theorem rmsTerms_mem {image ref_image : Image} {t : ℚ} (h : t ∈ rmsTerms image ref_image) :
    0 ≤ t ∧ t ≤ 1 := by
  unfold rmsTerms at h
  obtain ⟨c, hc, rfl⟩ := List.mem_map.mp h
  exact ⟨pixelRadicand_nonneg _ _, pixelRadicand_le_one _ _⟩

theorem length_rmsTerms (image ref_image : Image) :
    (rmsTerms image ref_image).length = numDiffs image ref_image := by
  unfold rmsTerms numDiffs
  rw [List.length_map, ← List.countP_eq_length_filter]

theorem rmsSum_nonneg (terms : List ℚ) : 0 ≤ rmsSum terms := by
  unfold rmsSum
  refine List.sum_nonneg fun x hx => ?_
  obtain ⟨t, ht, rfl⟩ := List.mem_map.mp hx
  exact Real.sqrt_nonneg _

theorem rmsSum_le_length (terms : List ℚ) (h : ∀ t ∈ terms, t ≤ 1) :
    rmsSum terms ≤ terms.length := by
  unfold rmsSum
  have hb : ∀ x ∈ terms.map fun (t : ℚ) => Real.sqrt ((t : ℚ) : ℝ), x ≤ (1 : ℝ) := by
    intro x hx
    obtain ⟨t, ht, rfl⟩ := List.mem_map.mp hx
    exact Real.sqrt_le_one.mpr (by exact_mod_cast h t ht)
  have h2 := List.sum_le_card_nsmul (terms.map fun (t : ℚ) => Real.sqrt ((t : ℚ) : ℝ)) 1 hb
  rw [List.length_map] at h2
  simpa [nsmul_eq_mul] using h2

theorem diffRmsPerc_nonneg (image ref_image : Image) : 0 ≤ diffRmsPerc image ref_image := by
  unfold diffRmsPerc
  have h1 := rmsSum_nonneg (rmsTerms image ref_image)
  have h2 : (0 : ℝ) ≤ (numDiffs image ref_image : ℝ) := by positivity
  exact mul_nonneg (div_nonneg h1 h2) (by norm_num)

theorem diffRmsPerc_le_100 (image ref_image : Image) (h : numDiffs image ref_image ≠ 0) :
    diffRmsPerc image ref_image ≤ 100 := by
  unfold diffRmsPerc
  have hsum : rmsSum (rmsTerms image ref_image) ≤ ((rmsTerms image ref_image).length : ℝ) :=
    rmsSum_le_length _ fun t ht => (rmsTerms_mem ht).2
  rw [length_rmsTerms] at hsum
  have hpos : (0 : ℝ) < (numDiffs image ref_image : ℝ) := by
    exact_mod_cast Nat.pos_of_ne_zero h
  have h1 := (div_le_one hpos).mpr hsum
  nlinarith [h1]

/-- Claim C10: after any completing `get_diff` call (non-empty overlap),
the stored metrics satisfy `0 ≤ num_diffs_perc ≤ 100`,
`0 ≤ diff_rms_perc ≤ 100`, `max_pix_diff ≤ 255` (it is a natural number,
hence also `≥ 0`), and `max_pix_diff = 0` iff no overlapping pixel
differed. -/
theorem c10_metric_invariants (d : ImgDiffer) (image ref_image : Image)
    (h0 : totalOverlap image ref_image ≠ 0) :
    ∃ r d', d.getDiff image ref_image = .ok (r, d') ∧
      ∃ np rv mp,
        d'.num_diffs_perc = some np ∧ 0 ≤ np ∧ np ≤ 100 ∧
        d'.diff_rms_perc = some rv ∧ 0 ≤ rv ∧ rv ≤ 100 ∧
        d'.max_pix_diff = some mp ∧ mp ≤ 255 ∧
        (mp = 0 ↔ numDiffs image ref_image = 0) := by
  by_cases hnd : numDiffs image ref_image = 0
  · rw [getDiff_no_diffs d _ _ h0 hnd]
    by_cases hdim : ref_image.width = image.width ∧ ref_image.height = image.height
    · rw [if_pos hdim]
      refine ⟨none, _, rfl, 0, 0, 0, rfl, le_refl _, by norm_num, rfl, le_refl _,
        by norm_num, rfl, by omega, by simp [hnd]⟩
    · rw [if_neg hdim]
      refine ⟨some (diffImageOf image ref_image), _, rfl, 0, 0, 0, rfl, le_refl _,
        by norm_num, rfl, le_refl _, by norm_num, rfl, by omega, by simp [hnd]⟩
  · rw [getDiff_with_diffs d _ _ hnd]
    have hiff : maxPixDiff image ref_image = 0 ↔ numDiffs image ref_image = 0 := by
      have h1 := one_le_maxPixDiff hnd
      exact ⟨fun hmp => by omega, fun hh => absurd hh hnd⟩
    by_cases hok : rmsOk d.rms_tol_perc (diffRmsPerc image ref_image) ∧
        numDiffOk d.num_tol_perc (numDiffsPerc image ref_image) ∧
        maxPixDiffOk d.max_pix_diff_tol (maxPixDiff image ref_image)
    · rw [if_pos hok]
      exact ⟨none, _, rfl, numDiffsPerc image ref_image, diffRmsPerc image ref_image,
        maxPixDiff image ref_image, rfl, numDiffsPerc_nonneg _ _,
        numDiffsPerc_le_100 _ _ h0, rfl, diffRmsPerc_nonneg _ _,
        diffRmsPerc_le_100 _ _ hnd, rfl, maxPixDiff_le_255 _ _, hiff⟩
    · rw [if_neg hok]
      exact ⟨some (diffImageOf image ref_image), _, rfl, numDiffsPerc image ref_image,
        diffRmsPerc image ref_image, maxPixDiff image ref_image, rfl,
        numDiffsPerc_nonneg _ _, numDiffsPerc_le_100 _ _ h0, rfl, diffRmsPerc_nonneg _ _,
        diffRmsPerc_le_100 _ _ hnd, rfl, maxPixDiff_le_255 _ _, hiff⟩

/-- Witness for C10 at the concrete differing 1×1 pair. -/
theorem c10_metric_invariants_witness :
    totalOverlap imgOneB imgOne ≠ 0 ∧
      ∃ r d', (ImgDiffer.init (some 50) none none).getDiff imgOneB imgOne = .ok (r, d') ∧
        ∃ np rv mp,
          d'.num_diffs_perc = some np ∧ 0 ≤ np ∧ np ≤ 100 ∧
          d'.diff_rms_perc = some rv ∧ 0 ≤ rv ∧ rv ≤ 100 ∧
          d'.max_pix_diff = some mp ∧ mp ≤ 255 ∧
          (mp = 0 ↔ numDiffs imgOneB imgOne = 0) :=
  ⟨by decide, c10_metric_invariants _ _ _ (by decide)⟩

/-! ### Claim C7: the concrete 101×102 scenario -/

def baseColor : RGBA := ⟨10, 20, 30, 40⟩

def changedColor : RGBA := ⟨113, 124, 135, 146⟩

/-- The 101×102 reference image, uniformly `baseColor`. -/
def scenarioRef : Image := ⟨101, 102, fun _ _ => baseColor⟩

/-- The 101×102 actual image: identical to the reference except at
(50, 50), where the four channels are larger by exactly
(103, 104, 105, 106). -/
def scenarioActual : Image :=
  ⟨101, 102, fun i j => if i = 50 ∧ j = 50 then changedColor else baseColor⟩

theorem nodup_coords (w h : ℕ) : (coords w h).Nodup := by
  have heq : coords w h = (List.range w) ×ˢ (List.range h) := rfl
  rw [heq]
  exact (List.nodup_range _).product (List.nodup_range _)

theorem scenario_differB (c : ℕ × ℕ) :
    differB scenarioActual scenarioRef c = true ↔ c = (50, 50) := by
  rcases c with ⟨i, j⟩
  by_cases h5 : i = 50 ∧ j = 50
  · obtain ⟨rfl, rfl⟩ := h5
    simp only [Prod.mk.injEq, and_self, iff_true]
    decide
  · by_cases hv : i < 101 ∧ j < 102
    · have hpix : scenarioActual.pixel i j = baseColor := by
        simp [scenarioActual, h5]
      simp only [differB, Image.pixelColor, scenarioActual, scenarioRef] at *
      simp [hv, hpix, h5, Prod.mk.injEq]
    · simp only [differB, Image.pixelColor, scenarioActual, scenarioRef] at *
      simp [hv, h5, Prod.mk.injEq]

theorem scenario_differB_false {c : ℕ × ℕ} (h : c ≠ (50, 50)) :
    differB scenarioActual scenarioRef c = false := by
  rw [← Bool.not_eq_true]
  intro htr
  exact h ((scenario_differB c).mp htr)

/-- A predicate that singles out one element of a duplicate-free list has
filter equal to exactly that singleton. -/
theorem filter_eq_singleton_of_unique {α : Type} {p : α → Bool} {l : List α} {a : α}
    (hl : l.Nodup) (ha : a ∈ l) (hp : ∀ c, p c = true ↔ c = a) : l.filter p = [a] := by
  induction l with
  | nil => cases ha
  | cons x l ih =>
      obtain ⟨hx_notin, hl'⟩ := List.nodup_cons.mp hl
      rcases List.mem_cons.mp ha with rfl | ha'
      · have hpa : p a = true := (hp a).mpr rfl
        have h0 : l.filter p = [] := by
          rw [List.filter_eq_nil_iff]
          intro c hc hpc
          exact hx_notin (((hp c).mp hpc) ▸ hc)
        rw [List.filter_cons, if_pos (by rw [hpa]), h0]
      · have hpx : p x = false := by
          rcases hb : p x with _ | _
          · rfl
          · exact absurd ((hp x).mp hb ▸ ha') hx_notin
        rw [List.filter_cons, if_neg (by rw [hpx]; simp)]
        exact ih hl' ha'

theorem scenario_filter :
    (coords 101 102).filter (differB scenarioActual scenarioRef) = [(50, 50)] :=
  filter_eq_singleton_of_unique (nodup_coords _ _)
    (mem_coords.mpr ⟨by norm_num, by norm_num⟩) scenario_differB

theorem scenario_numDiffs : numDiffs scenarioActual scenarioRef = 1 := by
  unfold numDiffs
  rw [show max scenarioRef.width scenarioActual.width = 101 from rfl,
      show max scenarioRef.height scenarioActual.height = 102 from rfl,
      List.countP_eq_length_filter, scenario_filter]
  rfl

theorem scenario_total : totalOverlap scenarioActual scenarioRef = 101 * 102 := by
  unfold totalOverlap
  rw [show max scenarioRef.width scenarioActual.width = 101 from rfl,
      show max scenarioRef.height scenarioActual.height = 102 from rfl]
  rw [List.countP_eq_length.mpr, length_coords]
  intro c hc
  obtain ⟨h1, h2⟩ := mem_coords.mp hc
  simp only [bothValidB, Image.pixelColor, scenarioActual, scenarioRef] at *
  simp [h1, h2]

theorem scenario_rmsTerms :
    rmsTerms scenarioActual scenarioRef = [pixelRadicand changedColor baseColor] := by
  unfold rmsTerms
  rw [show max scenarioRef.width scenarioActual.width = 101 from rfl,
      show max scenarioRef.height scenarioActual.height = 102 from rfl,
      scenario_filter]
  simp [diffTermOf, scenarioActual, scenarioRef]

theorem scenario_maxPixDiff : maxPixDiff scenarioActual scenarioRef = 106 := by
  unfold maxPixDiff
  rw [show max scenarioRef.width scenarioActual.width = 101 from rfl,
      show max scenarioRef.height scenarioActual.height = 102 from rfl,
      scenario_filter]
  decide

theorem scenario_numDiffsPerc :
    numDiffsPerc scenarioActual scenarioRef = 1 / (101 * 102) * 100 := by
  unfold numDiffsPerc
  rw [scenario_numDiffs, scenario_total]
  norm_num

theorem scenario_radicand :
    pixelRadicand changedColor baseColor =
      (103 ^ 2 + 104 ^ 2 + 105 ^ 2 + 106 ^ 2) / 260100 := by
  unfold pixelRadicand
  rw [show changedColor.r.val = 113 from rfl, show changedColor.g.val = 124 from rfl,
    show changedColor.b.val = 135 from rfl, show changedColor.a.val = 146 from rfl,
    show baseColor.r.val = 10 from rfl, show baseColor.g.val = 20 from rfl,
    show baseColor.b.val = 30 from rfl, show baseColor.a.val = 40 from rfl]
  norm_num

theorem scenario_diffRmsPerc :
    diffRmsPerc scenarioActual scenarioRef =
      100 * Real.sqrt (103 ^ 2 + 104 ^ 2 + 105 ^ 2 + 106 ^ 2) / 2 / 255 := by
  unfold diffRmsPerc
  rw [scenario_rmsTerms, scenario_numDiffs]
  have hsum : rmsSum [pixelRadicand changedColor baseColor] =
      Real.sqrt ((pixelRadicand changedColor baseColor : ℚ) : ℝ) := by
    simp [rmsSum]
  rw [hsum]
  have hq : ((pixelRadicand changedColor baseColor : ℚ) : ℝ) =
      (103 ^ 2 + 104 ^ 2 + 105 ^ 2 + 106 ^ 2 : ℝ) / 510 ^ 2 := by
    rw [scenario_radicand]
    push_cast
    norm_num
  rw [hq, Real.sqrt_div (by positivity), Real.sqrt_sq (by norm_num : (0 : ℝ) ≤ 510)]
  norm_num
  ring

/-- Claim C7: for the concrete 101×102 pair differing only at (50, 50) by
exactly (103, 104, 105, 106) per channel, `get_diff` stores
`num_diffs_perc = 1/(101*102)*100`, `max_pix_diff = 106` and
`diff_rms_perc = 100 * sqrt(103² + 104² + 105² + 106²) / 2 / 255`. -/
theorem c7_concrete_scenario :
    ∃ r d', (ImgDiffer.init none none none).getDiff scenarioActual scenarioRef = .ok (r, d') ∧
      d'.num_diffs_perc = some (1 / (101 * 102) * 100) ∧
      d'.max_pix_diff = some 106 ∧
      d'.diff_rms_perc =
        some (100 * Real.sqrt (103 ^ 2 + 104 ^ 2 + 105 ^ 2 + 106 ^ 2) / 2 / 255) := by
  have hnd : numDiffs scenarioActual scenarioRef ≠ 0 := by
    rw [scenario_numDiffs]
    omega
  rw [getDiff_with_diffs _ _ _ hnd]
  by_cases hok : rmsOk (ImgDiffer.init none none none).rms_tol_perc
      (diffRmsPerc scenarioActual scenarioRef) ∧
      numDiffOk (ImgDiffer.init none none none).num_tol_perc
        (numDiffsPerc scenarioActual scenarioRef) ∧
      maxPixDiffOk (ImgDiffer.init none none none).max_pix_diff_tol
        (maxPixDiff scenarioActual scenarioRef)
  · rw [if_pos hok]
    exact ⟨none, _, rfl, by simp [scenario_numDiffsPerc], by simp [scenario_maxPixDiff],
      by simp [scenario_diffRmsPerc]⟩
  · rw [if_neg hok]
    exact ⟨some (diffImageOf scenarioActual scenarioRef), _, rfl,
      by simp [scenario_numDiffsPerc], by simp [scenario_maxPixDiff],
      by simp [scenario_diffRmsPerc]⟩

end PyqtTestUtils
